import Mathlib

/-!
Shallow embedding of the Libri librarian server (kustomzone/libri), covering
the RPC handlers in `libri/librarian/server/server.go`, the introduction
response processor in `libri/librarian/server/introduce`, the entry packer in
`libri/author/io/pack/entry.go`, and the RocksDB wrapper in `libri/db/kvdb.go`.
Machine bytes are modelled as `List Nat`; 256-bit IDs as the big-endian `Nat`
value of their bytes.  Collaborators whose Go source is not part of the
repository snapshot (request verifier, storage checkers, routing table,
search/store iterators) are modelled from the specification, as marked on each
definition.
-/

namespace Libri

/-- A byte string, each element intended to be < 256. -/
abbrev Bytes := List Nat

/-- Big-endian interpretation of a byte string as a natural number, mirroring
`id.FromBytes` which treats the bytes as a big-endian 256-bit integer. -/
def bytesToNat (b : Bytes) : Nat :=
  b.foldl (fun acc x => acc * 256 + x) 0

/-- Error kinds surfaced by handlers; Go returns `error` values, which we
classify by the site that produced them. -/
inductive Err where
  | unauthenticated
  | invalidKeyLength
  | hashMismatch
  | peerIdMismatch
  | searchErrored
  | searchExhausted
  | unexpectedSearchResult
  | storeErrored
  | storeExhausted
  | unexpectedStoreResult
  | notAPage
  | loadFailed
  | sendFailed
  | filterDecodeFailed
  deriving Repr, DecidableEq

/-- `api.RequestMetadata`: request id and requester public key. -/
structure RequestMetadata where
  requestId : Bytes
  pubKey : Bytes
  deriving Repr, DecidableEq

/-- `api.ResponseMetadata`: echoes the request id (the fresh random
`response_id` is elided as no claim concerns it). -/
structure ResponseMetadata where
  requestId : Bytes
  deriving Repr, DecidableEq

/-- `api.PeerAddress`: peer id bytes, name and public address. -/
structure PeerAddress where
  peerId : Bytes
  peerName : String
  ip : String
  port : Nat
  deriving Repr, DecidableEq

/-- `enc.EncryptedMetadata`: ciphertext and its MAC. -/
structure EncryptedMetadata where
  ciphertext : Bytes
  ciphertextMAC : Bytes
  deriving Repr, DecidableEq

/-- `api.Page`: author key, index, ciphertext and MAC. -/
structure Page where
  authorPublicKey : Bytes
  index : Nat
  ciphertext : Bytes
  ciphertextMac : Bytes
  deriving Repr, DecidableEq

/-- `api.Entry` contents: either an inline `Page` or an ordered `PageKeys`
list (page ids modelled by their byte representation). -/
inductive EntryContents where
  | page (p : Page)
  | pageKeys (keys : List Bytes)
  deriving Repr, DecidableEq

/-- `api.Entry`. -/
structure Entry where
  authorPublicKey : Bytes
  contents : EntryContents
  createdTime : Int
  metadataCiphertext : Bytes
  metadataCiphertextMac : Bytes
  deriving Repr, DecidableEq

/-- `api.Envelope`. -/
structure Envelope where
  entryKey : Bytes
  authorPublicKey : Bytes
  readerPublicKey : Bytes
  deriving Repr, DecidableEq

/-- `api.Document`: a tagged union of envelope, entry and page. -/
inductive Document where
  | envelope (e : Envelope)
  | entry (e : Entry)
  | page (p : Page)
  deriving Repr, DecidableEq

/-- `api.Publication`: entry key plus author and reader public keys. -/
structure Publication where
  entryKey : Bytes
  authorPublicKey : Bytes
  readerPublicKey : Bytes
  deriving Repr, DecidableEq

/-- `subscribe.KeyedPub`: a publication together with its content id. -/
structure KeyedPub where
  key : Bytes
  value : Publication
  deriving Repr, DecidableEq

/-- Abstract environment of collaborator functions the server closes over:
the request verifier outcome, the SHA-256 hash and protobuf serialization.
These are opaque primitives to the handlers, so theorems quantify over them. -/
structure Env where
  verify : RequestMetadata → Bool
  sha256 : Bytes → Bytes
  serializeDoc : Document → Bytes

/-- Modelled from the spec: `checkRequest` (request verifier, §4.1, not in the
repository snapshot) verifies the signed metadata and returns the requester
peer id `SHA-256(pub_key)`; a failing verification yields an error. -/
def checkRequest (env : Env) (md : RequestMetadata) : Except Err Bytes :=
  if env.verify md then Except.ok (env.sha256 md.pubKey)
  else Except.error Err.unauthenticated

/-- Modelled from the spec: the `KeyChecker` (§4.5,
`storage.NewExactLengthChecker(storage.EntriesKeyLength)`, not in the
snapshot) rejects keys whose length is not 32 bytes. -/
def checkKey (key : Bytes) : Except Err Unit :=
  if key.length = 32 then Except.ok () else Except.error Err.invalidKeyLength

/-- Modelled from the spec: the `KeyValueChecker` (§4.5,
`storage.NewHashKeyValueChecker()`, not in the snapshot) additionally
verifies `SHA-256(serialize(value)) == key`. -/
def checkKeyValue (env : Env) (key : Bytes) (value : Document) : Except Err Unit :=
  match checkKey key with
  | Except.error e => Except.error e
  | Except.ok _ =>
    if env.sha256 (env.serializeDoc value) = key then Except.ok ()
    else Except.error Err.hashMismatch

/-- Modelled from the spec: `checkRequestAndKey` composes the request
verifier with the key checker. -/
def checkRequestAndKey (env : Env) (md : RequestMetadata) (key : Bytes) :
    Except Err Bytes :=
  match checkRequest env md with
  | Except.error e => Except.error e
  | Except.ok requesterID =>
    match checkKey key with
    | Except.error e => Except.error e
    | Except.ok _ => Except.ok requesterID

/-- Modelled from the spec: `checkRequestAndKeyValue` composes the request
verifier with the key/value checker. -/
def checkRequestAndKeyValue (env : Env) (md : RequestMetadata) (key : Bytes)
    (value : Document) : Except Err Bytes :=
  match checkRequest env md with
  | Except.error e => Except.error e
  | Except.ok requesterID =>
    match checkKeyValue env key value with
    | Except.error e => Except.error e
    | Except.ok _ => Except.ok requesterID

/-- The document store contents, keyed by the `Nat` value of the 32-byte id
(`cid.FromBytes`). -/
abbrev DocStore := List (Nat × Document)

/-- Modelled from the spec: `documentSL.Load` returns the stored value for a
key, or nothing when absent (storage wrapper not in the snapshot). -/
def loadDoc (docs : DocStore) (key : Nat) : Option Document :=
  match docs.find? (fun e => e.1 == key) with
  | some e => some e.2
  | none => none

/-- Modelled from the spec: `documentSL.Store` writes the value for a key;
the last write wins at the KV layer. -/
def storeDoc (docs : DocStore) (key : Nat) (value : Document) : DocStore :=
  (key, value) :: docs.filter (fun e => !(e.1 == key))

end Libri

namespace Libri

/-! ### RocksDB wrapper (`libri/db/kvdb.go`) -/

/-- The underlying `gorocksdb.DB` handle, modelled by its key/value contents. -/
structure GoRocksDB where
  data : List (Bytes × Bytes)
  deriving Repr, DecidableEq

/-- `db.RocksDB`: the wrapper struct; `rdb` may be a nil pointer, modelled by
`Option`.  Read/write options carry no observable state. -/
structure RocksDB where
  rdb : Option GoRocksDB
  ro : Unit
  wo : Unit
  deriving Repr, DecidableEq

/-- Outcome of a Go call that can panic on a nil-pointer dereference. -/
inductive GoOutcome (α : Type) where
  | ok (a : α)
  | panicked
  deriving Repr, DecidableEq

/-- `gorocksdb.DB.GetBytes`, modelled as association-list lookup. -/
def GoRocksDB.getBytes (g : GoRocksDB) (key : Bytes) : Option Bytes :=
  match g.data.find? (fun e => e.1 == key) with
  | some e => some e.2
  | none => none

/-- `RocksDB.Get`: a nil receiver or nil `rdb` handle is guarded and returns
an error; otherwise the read is delegated to the handle.  The receiver is an
`Option` because Go allows calling this method on a nil `*RocksDB`. -/
def RocksDB.get (db : Option RocksDB) (key : Bytes) : Except String (Option Bytes) :=
  match db with
  | none => Except.error "RocksDB struct is nil!"
  | some d =>
    match d.rdb with
    | none => Except.error "rdb is nil!"
    | some r => Except.ok (r.getBytes key)

/-- `gorocksdb.DB.Put` on the handle, modelled as an insert. -/
def GoRocksDB.putBytes (g : GoRocksDB) (key value : Bytes) : GoRocksDB :=
  ⟨(key, value) :: g.data.filter (fun e => !(e.1 == key))⟩

/-- `RocksDB.Put`: no nil guard — `db.rdb.Put(...)` dereferences the receiver
and the handle, so a nil receiver or nil handle panics. -/
def RocksDB.put (db : Option RocksDB) (key value : Bytes) : GoOutcome GoRocksDB :=
  match db with
  | none => GoOutcome.panicked
  | some d =>
    match d.rdb with
    | none => GoOutcome.panicked
    | some r => GoOutcome.ok (r.putBytes key value)

/-- `gorocksdb.DB.Delete` on the handle. -/
def GoRocksDB.deleteBytes (g : GoRocksDB) (key : Bytes) : GoRocksDB :=
  ⟨g.data.filter (fun e => !(e.1 == key))⟩

/-- `RocksDB.Delete`: no nil guard, like `Put`. -/
def RocksDB.delete (db : Option RocksDB) (key : Bytes) : GoOutcome GoRocksDB :=
  match db with
  | none => GoOutcome.panicked
  | some d =>
    match d.rdb with
    | none => GoOutcome.panicked
    | some r => GoOutcome.ok (r.deleteBytes key)

/-! ### Routing table (`routing.Table`, modelled from the spec §4.2) -/

/-- The table of active peers, in recency order (most recently pushed last).
Modelled from the spec: the bucket structure (§3, §4.2) is elided, since
`Peak` and `Sample` range over all active peers and no claim concerns
bucket splits. -/
abbrev Table := List PeerAddress

/-- XOR distance from a key to a peer id, the two 256-bit values XOR-ed
(`id.Distance`). -/
def distTo (key : Nat) (p : PeerAddress) : Nat :=
  Nat.xor key (bytesToNat p.peerId)

/-- Ordering used by `Peak`: ascending XOR distance to the key, ties broken
by the lexicographically (numerically) smaller peer id per spec §4.3. -/
def peakBefore (key : Nat) (p q : PeerAddress) : Bool :=
  distTo key p < distTo key q ||
    (distTo key p == distTo key q && bytesToNat p.peerId ≤ bytesToNat q.peerId)

/-- Insert a peer into a list sorted by `peakBefore`. -/
def insertByDist (key : Nat) (p : PeerAddress) : List PeerAddress → List PeerAddress
  | [] => [p]
  | q :: qs =>
    if peakBefore key p q then p :: q :: qs else q :: insertByDist key p qs

/-- Sort the table by ascending XOR distance to the key (insertion sort). -/
def sortByDist (key : Nat) (ps : List PeerAddress) : List PeerAddress :=
  ps.foldr (insertByDist key) []

/-- Modelled from the spec: `Table.Peak(key, n)` (§4.2, routing package not in
the snapshot) returns up to `n` peers in ascending XOR distance from `key`. -/
def peak (rt : Table) (key : Nat) (n : Nat) : List PeerAddress :=
  (sortByDist key rt).take n

/-- A 64-bit linear congruential step standing in for Go's `math/rand`
generator; all that matters for the claims is that it is a deterministic
function of the seed. -/
def lcgNext (s : Nat) : Nat :=
  (s * 6364136223846793005 + 1442695040888963407) % (2 ^ 64)

/-- One step of reservoir sampling: keep the first `n` peers, then replace a
random slot with decreasing probability. -/
def reservoirStep (n : Nat) (st : List PeerAddress × Nat × Nat) (p : PeerAddress) :
    List PeerAddress × Nat × Nat :=
  let slots := st.1
  let i := st.2.1
  let s := st.2.2
  if i < n then (slots ++ [p], i + 1, s)
  else
    let s1 := lcgNext s
    let j := s1 % (i + 1)
    if j < n then (slots.set j p, i + 1, s1) else (slots, i + 1, s1)

/-- Modelled from the spec: `Table.Sample(n, rng)` (§4.2, routing package not
in the snapshot) reservoir-samples `n` active peers, deterministically in the
rng seed. -/
def sample (rt : Table) (n : Nat) (seed : Nat) : List PeerAddress :=
  (rt.foldl (reservoirStep n) ([], 0, seed)).1

/-- Modelled from the spec: `Table.Push(peer)` (§4.2, routing package not in
the snapshot); an existing peer moves to the most-recent position, a new peer
is appended (bucket-fullness eviction elided, nothing claimed depends on it). -/
def pushPeer (rt : Table) (p : PeerAddress) : Table :=
  if rt.any (fun q => q.peerId == p.peerId) then
    rt.filter (fun q => !(q.peerId == p.peerId)) ++ [p]
  else rt ++ [p]

/-! ### Search and store iterator results (modelled from the spec §4.3 and the
`search`/`store` package tests in the snapshot) -/

/-- Parameters of a search (`search.Parameters`). -/
structure SearchParams where
  nClosestResponses : Nat
  nMaxErrors : Nat
  concurrency : Nat
  deriving Repr, DecidableEq

/-- Modelled from the spec: `search.Result` (§4.3, search package not in the
snapshot): found value, closest-peers heap contents, unqueried and responded
peers, error count and fatal error flag. -/
structure SearchResult where
  value : Option Document
  closest : List PeerAddress
  unqueried : List PeerAddress
  responded : List PeerAddress
  nErrored : Nat
  fatalErr : Bool
  deriving Repr, DecidableEq

/-- Modelled from the spec: `Search.FoundValue()` holds when the result holds
a value. -/
def foundValue (r : SearchResult) : Bool :=
  r.value.isSome

/-- Modelled from the spec: `Search.FoundClosestPeers()` holds when the
closest-peers heap has filled to `NClosestResponses` (the server tests build
such a result by pushing exactly `NClosestResponses` peers into `Closest`). -/
def foundClosestPeers (r : SearchResult) (p : SearchParams) : Bool :=
  p.nClosestResponses ≤ r.closest.length

/-- Modelled from the spec: `Search.Errored()` holds on a fatal error or when
the error count reaches the maximum. -/
def searchErrored (r : SearchResult) (p : SearchParams) : Bool :=
  r.fatalErr || p.nMaxErrors ≤ r.nErrored

/-- Modelled from the spec: `Search.Exhausted()` holds when no unqueried
peers remain. -/
def searchExhausted (r : SearchResult) : Bool :=
  r.unqueried.isEmpty

/-- Parameters of a store iteration (`store.Parameters`). -/
structure StoreParams where
  nReplicas : Nat
  nMaxErrors : Nat
  deriving Repr, DecidableEq

/-- Modelled from the spec: `store.Result` (§4.3, store package not in the
snapshot): the inner search result plus the replication state. -/
structure StoreResult where
  searchRes : SearchResult
  unqueried : List PeerAddress
  responded : List PeerAddress
  nErrors : Nat
  fatalErr : Bool
  deriving Repr, DecidableEq

/-- Modelled from the spec: `Store.Stored()` holds exactly when replication
achieved `NReplicas ≥ NClosestResponses` responded peers (§4.3; the server
tests make `Stored()` true by filling `Responded` to `NClosestResponses`). -/
def storeStored (s : StoreResult) (sp : SearchParams) : Bool :=
  sp.nClosestResponses ≤ s.responded.length

/-- Modelled from the spec: `Store.Exists()` holds when the inner search
found the value already present. -/
def storeExists (s : StoreResult) : Bool :=
  s.searchRes.value.isSome

/-- Modelled from the spec: `Store.Errored()` holds on a fatal store error,
too many store errors, or an errored inner search. -/
def storeErrored (s : StoreResult) (sp : SearchParams) (stp : StoreParams) : Bool :=
  s.fatalErr || stp.nMaxErrors ≤ s.nErrors || searchErrored s.searchRes sp

/-- Modelled from the spec: `Store.Exhausted()` holds when the store has no
unqueried peers left and the inner search is exhausted. -/
def storeExhausted (s : StoreResult) : Bool :=
  s.unqueried.isEmpty && searchExhausted s.searchRes

/-! ### RPC requests and responses (`api` package) -/

/-- `api.PingRequest` (its metadata field is never inspected by the handler). -/
structure PingRequest where
  metadata : RequestMetadata
  deriving Repr, DecidableEq

/-- `api.PingResponse`. -/
structure PingResponse where
  message : String
  deriving Repr, DecidableEq

/-- `api.IntroduceRequest`. -/
structure IntroduceRequest where
  metadata : RequestMetadata
  self : PeerAddress
  numPeers : Nat
  deriving Repr, DecidableEq

/-- `api.IntroduceResponse`. -/
structure IntroduceResponse where
  metadata : ResponseMetadata
  self : PeerAddress
  peers : List PeerAddress
  deriving Repr, DecidableEq

/-- `api.FindRequest`. -/
structure FindRequest where
  metadata : RequestMetadata
  key : Bytes
  numPeers : Nat
  deriving Repr, DecidableEq

/-- `api.FindResponse`: at most one of `value` and `peers` is populated. -/
structure FindResponse where
  metadata : ResponseMetadata
  value : Option Document
  peers : List PeerAddress
  deriving Repr, DecidableEq

/-- `api.StoreRequest`. -/
structure StoreRequest where
  metadata : RequestMetadata
  key : Bytes
  value : Document
  deriving Repr, DecidableEq

/-- `api.StoreResponse`. -/
structure StoreResponse where
  metadata : ResponseMetadata
  deriving Repr, DecidableEq

/-- `api.PutRequest`. -/
structure PutRequest where
  metadata : RequestMetadata
  key : Bytes
  value : Document
  deriving Repr, DecidableEq

/-- `api.GetRequest`. -/
structure GetRequest where
  metadata : RequestMetadata
  key : Bytes
  deriving Repr, DecidableEq

/-- `api.GetResponse`. -/
structure GetResponse where
  metadata : ResponseMetadata
  value : Option Document
  deriving Repr, DecidableEq

/-- `api.PutOperation`. -/
inductive PutOperation where
  | stored
  | leftExisting
  deriving Repr, DecidableEq

/-- `api.PutResponse`. -/
structure PutResponse where
  metadata : ResponseMetadata
  operation : PutOperation
  nReplicas : Nat
  deriving Repr, DecidableEq

/-- `api.SubscribeResponse`. -/
structure SubscribeResponse where
  metadata : ResponseMetadata
  key : Bytes
  value : Publication
  deriving Repr, DecidableEq

/-- `Librarian.NewResponseMetadata`: echoes the request id. -/
def newResponseMetadata (md : RequestMetadata) : ResponseMetadata :=
  ⟨md.requestId⟩

/-! ### RPC handlers (`Librarian`, `libri/librarian/server/server.go`) -/

/-- `Librarian.Ping`: returns `"pong"` unconditionally; the request verifier
held by the server is never consulted. -/
def pingHandler (_env : Env) (_rq : PingRequest) : Except Err PingResponse :=
  Except.ok { message := "pong" }

/-- `peer.Fromer.FromAPI` as far as the handlers observe it: the peer record
carries the address fields, with its id read from the address bytes. -/
def peerFromAPI (pa : PeerAddress) : PeerAddress := pa

/-- `Librarian.Introduce`: check the request, reject a stated peer id that
differs from the one derived from the signature, push the requester into the
routing table, and sample peers with an rng seeded by the big-endian value of
the first 8 bytes of the request id. -/
def introduceHandler (env : Env) (rt : Table) (rq : IntroduceRequest) :
    Except Err IntroduceResponse × Table :=
  match checkRequest env rq.metadata with
  | Except.error e => (Except.error e, rt)
  | Except.ok requesterID =>
    let requester := peerFromAPI rq.self
    if bytesToNat requester.peerId ≠ bytesToNat requesterID then
      (Except.error Err.peerIdMismatch, rt)
    else
      let rt1 := pushPeer rt requester
      let seed := bytesToNat (rq.metadata.requestId.take 8)
      let peers := sample rt1 rq.numPeers seed
      (Except.ok { metadata := newResponseMetadata rq.metadata,
                   self := requester, peers := peers }, rt1)

/-- `Librarian.Find`: check request and key; if the document store holds the
key return its value (and no peers), otherwise return the closest peers via
`Peak`; an absent key is not an error. -/
def findHandler (env : Env) (docs : DocStore) (rt : Table) (rq : FindRequest) :
    Except Err FindResponse :=
  match checkRequestAndKey env rq.metadata rq.key with
  | Except.error e => Except.error e
  | Except.ok _ =>
    match loadDoc docs (bytesToNat rq.key) with
    | some value =>
      Except.ok { metadata := newResponseMetadata rq.metadata,
                  value := some value, peers := [] }
    | none =>
      let closest := peak rt (bytesToNat rq.key) rq.numPeers
      Except.ok { metadata := newResponseMetadata rq.metadata,
                  value := none, peers := closest }

/-- `Librarian.Store`: check request, key and value (content hash); only then
store the document and forward the publication.  Returns the possibly-updated
document store alongside the response. -/
def storeHandler (env : Env) (docs : DocStore) (rq : StoreRequest) :
    Except Err StoreResponse × DocStore :=
  match checkRequestAndKeyValue env rq.metadata rq.key rq.value with
  | Except.error e => (Except.error e, docs)
  | Except.ok _ =>
    let docs1 := storeDoc docs (bytesToNat rq.key) rq.value
    (Except.ok { metadata := newResponseMetadata rq.metadata }, docs1)

/-- `Librarian.Get`: check request and key, run a search (the network-facing
searcher is a collaborator, passed as a function of key and seeds), then map
the search outcome: found value, found closest peers (null value), errored,
exhausted, or unexpected. -/
def getHandler (env : Env) (rt : Table) (sp : SearchParams)
    (searcher : Nat → List PeerAddress → Except Err SearchResult)
    (rq : GetRequest) : Except Err GetResponse :=
  match checkRequestAndKey env rq.metadata rq.key with
  | Except.error e => Except.error e
  | Except.ok _ =>
    let key := bytesToNat rq.key
    let seeds := peak rt key sp.concurrency
    match searcher key seeds with
    | Except.error e => Except.error e
    | Except.ok r =>
      if foundValue r then
        Except.ok { metadata := newResponseMetadata rq.metadata, value := r.value }
      else if foundClosestPeers r sp then
        Except.ok { metadata := newResponseMetadata rq.metadata, value := none }
      else if searchErrored r sp then
        Except.error Err.searchErrored
      else if searchExhausted r then
        Except.error Err.searchExhausted
      else
        Except.error Err.unexpectedSearchResult

/-- `Librarian.Put`: check request, key and value, run a store iteration (the
network-facing storer is a collaborator, passed as a function of key and
seeds), then map the store outcome: stored (with `n_replicas` the number of
responded peers), exists, errored, exhausted, or unexpected. -/
def putHandler (env : Env) (rt : Table) (sp : SearchParams) (stp : StoreParams)
    (storer : Nat → List PeerAddress → Except Err StoreResult)
    (rq : PutRequest) : Except Err PutResponse :=
  match checkRequestAndKeyValue env rq.metadata rq.key rq.value with
  | Except.error e => Except.error e
  | Except.ok _ =>
    let key := bytesToNat rq.key
    let seeds := peak rt key sp.concurrency
    match storer key seeds with
    | Except.error e => Except.error e
    | Except.ok s =>
      if storeStored s sp then
        Except.ok { metadata := newResponseMetadata rq.metadata,
                    operation := PutOperation.stored,
                    nReplicas := s.responded.length }
      else if storeExists s then
        Except.ok { metadata := newResponseMetadata rq.metadata,
                    operation := PutOperation.leftExisting,
                    nReplicas := s.responded.length }
      else if storeErrored s sp stp then
        Except.error Err.storeErrored
      else if storeExhausted s then
        Except.error Err.storeExhausted
      else
        Except.error Err.unexpectedStoreResult

/-- `api.Subscription` as the handler observes it after `subscribe.FromAPI`:
each encoded bloom filter decodes to a membership test, or fails to decode. -/
structure Subscription where
  authorKeysFilter : Except Err (Bytes → Bool)
  readerKeysFilter : Except Err (Bytes → Bool)

/-- `api.SubscribeRequest`. -/
structure SubscribeRequest where
  metadata : RequestMetadata
  subscription : Subscription

/-- The sequential prelude of `Librarian.Subscribe`: check the request, then
decode the author and reader bloom filters; any failure aborts before the
streaming loop. -/
def subscribeSetup (env : Env) (rq : SubscribeRequest) :
    Except Err ((Bytes → Bool) × (Bytes → Bool)) :=
  match checkRequest env rq.metadata with
  | Except.error e => Except.error e
  | Except.ok _ =>
    match rq.subscription.authorKeysFilter with
    | Except.error e => Except.error e
    | Except.ok authorFilter =>
      match rq.subscription.readerKeysFilter with
      | Except.error e => Except.error e
      | Except.ok readerFilter => Except.ok (authorFilter, readerFilter)

/-- `Librarian.maybeSend`: skip (without error) unless the publication's
author key tests positive in the author filter and its reader key in the
reader filter; when both pass, send the response on the stream (`send` is the
gRPC stream collaborator).  `ok none` means skipped, `ok (some rp)` means
`rp` was sent. -/
def maybeSend (authorFilter readerFilter : Bytes → Bool)
    (send : SubscribeResponse → Except Err Unit)
    (responseMetadata : ResponseMetadata) (pub : KeyedPub) :
    Except Err (Option SubscribeResponse) :=
  if !(authorFilter pub.value.authorPublicKey) then Except.ok none
  else if !(readerFilter pub.value.readerPublicKey) then Except.ok none
  else
    let rp : SubscribeResponse :=
      { metadata := responseMetadata, key := pub.key, value := pub.value }
    match send rp with
    | Except.ok _ => Except.ok (some rp)
    | Except.error e => Except.error e

/-! ### Introduction response processor
(`responseProcessor.Process`, `libri/librarian/server/introduce`) -/

/-- The `Responded`/`Unqueried` maps of `introduce.Result`, keyed by the id
string of the peer (modelled by the `Nat` value of the id bytes, on which the
hex id string is injective). -/
abbrev PMap := List (Nat × PeerAddress)

/-- Map membership for a key. -/
def pmapContains (m : PMap) (k : Nat) : Bool :=
  m.any (fun e => e.1 == k)

/-- First value for a key, mirroring Go map lookup (keys are unduplicated). -/
def pmapLookup (m : PMap) (k : Nat) : Option PeerAddress :=
  match m.find? (fun e => e.1 == k) with
  | some e => some e.2
  | none => none

/-- Go map assignment `m[k] = v`: replace the value under an existing key,
otherwise add the binding. -/
def pmapInsert (m : PMap) (k : Nat) (v : PeerAddress) : PMap :=
  match m with
  | [] => [(k, v)]
  | e :: es => if e.1 == k then (k, v) :: es else e :: pmapInsert es k v

/-- The `Responded` and `Unqueried` maps of `introduce.Result` that
`Process` reads and writes. -/
structure IntroResult where
  responded : PMap
  unqueried : PMap
  deriving Repr, DecidableEq

/-- The loop body of `Process` over `rp.Peers`: a discovered address is added
to `Unqueried` only when its id is in neither `Responded` (fixed during the
loop) nor the current `Unqueried`. -/
def addUnqueried (responded : PMap) : List PeerAddress → PMap → PMap
  | [], u => u
  | pa :: pas, u =>
    let k := bytesToNat pa.peerId
    if pmapContains responded k || pmapContains u k then
      addUnqueried responded pas u
    else
      addUnqueried responded pas (u ++ [(k, peerFromAPI pa)])

/-- `responseProcessor.Process`: insert the responder `rp.Self` into
`Responded`, then add each newly discovered address in `rp.Peers` to
`Unqueried` unless already known. -/
def processIntroduceResponse (rp : IntroduceResponse) (result : IntroResult) :
    IntroResult :=
  let idKey := bytesToNat rp.self.peerId
  let responded := pmapInsert result.responded idKey (peerFromAPI rp.self)
  let unqueried := addUnqueried responded rp.peers result.unqueried
  { responded := responded, unqueried := unqueried }

/-! ### Entry packer (`libri/author/io/pack/entry.go`) -/

/-- `newSinglePageEntry`: load the single page from the document store and
inline it in the entry; a non-page document is an error.  `now` stands for
`time.Now().Unix()`. -/
def newSinglePageEntry (docL : Bytes → Except Err Document) (authorPub : Bytes)
    (pageKey : Bytes) (encMeta : EncryptedMetadata) (now : Int) :
    Except Err Entry :=
  match docL pageKey with
  | Except.error e => Except.error e
  | Except.ok pageDoc =>
    match pageDoc with
    | Document.page p =>
      Except.ok { authorPublicKey := authorPub,
                  contents := EntryContents.page p,
                  createdTime := now,
                  metadataCiphertext := encMeta.ciphertext,
                  metadataCiphertextMac := encMeta.ciphertextMAC }
    | _ => Except.error Err.notAPage

/-- `newMultiPageEntry`: the entry carries the page keys, in order (page ids
are modelled by their byte representation, so `pageKey.Bytes()` is the
identity). -/
def newMultiPageEntry (authorPub : Bytes) (pageKeys : List Bytes)
    (encMeta : EncryptedMetadata) (now : Int) : Except Err Entry :=
  Except.ok { authorPublicKey := authorPub,
              contents := EntryContents.pageKeys pageKeys,
              createdTime := now,
              metadataCiphertext := encMeta.ciphertext,
              metadataCiphertextMac := encMeta.ciphertextMAC }

/-- `newEntryDoc`: a single resulting page id inlines the page loaded from
the document store; any other count carries the ordered page-key list. -/
def newEntryDoc (docL : Bytes → Except Err Document) (authorPub : Bytes)
    (pageIDs : List Bytes) (encMeta : EncryptedMetadata) (now : Int) :
    Except Err Document :=
  let entryRes :=
    if h : pageIDs.length = 1 then
      newSinglePageEntry docL authorPub (pageIDs.head (by
        intro hnil
        rw [hnil] at h
        simp at h)) encMeta now
    else
      newMultiPageEntry authorPub pageIDs encMeta now
  match entryRes with
  | Except.error e => Except.error e
  | Except.ok entry => Except.ok (Document.entry entry)

/-! ## Theorems -/

/-- Evaluation of `checkRequest` under a passing verifier. -/
theorem checkRequest_of_verify {env : Env} {md : RequestMetadata}
    (h : env.verify md = true) :
    checkRequest env md = Except.ok (env.sha256 md.pubKey) := by
  simp [checkRequest, h]

/-- Evaluation of `checkRequest` under a failing verifier. -/
theorem checkRequest_of_not_verify {env : Env} {md : RequestMetadata}
    (h : env.verify md = false) :
    checkRequest env md = Except.error Err.unauthenticated := by
  simp [checkRequest, h]

/-- C1: a Store request whose value fails the content-hash check
`SHA-256(serialize(value)) == key` is answered with an error and the document
store is unchanged — the key/value check runs before `documentSL.Store`, so
nothing is persisted. -/
theorem store_hash_mismatch_rejected (env : Env) (docs : DocStore)
    (rq : StoreRequest)
    (h : env.sha256 (env.serializeDoc rq.value) ≠ rq.key) :
    (∃ e, (storeHandler env docs rq).1 = Except.error e) ∧
    (storeHandler env docs rq).2 = docs := by
  by_cases hv : env.verify rq.metadata
  · by_cases hk : rq.key.length = 32
    · constructor
      · refine ⟨Err.hashMismatch, ?_⟩
        simp [storeHandler, checkRequestAndKeyValue, checkKeyValue, checkKey,
          checkRequest_of_verify hv, hv, hk, h]
      · simp [storeHandler, checkRequestAndKeyValue, checkKeyValue, checkKey,
          checkRequest_of_verify hv, hv, hk, h]
    · constructor
      · refine ⟨Err.invalidKeyLength, ?_⟩
        simp [storeHandler, checkRequestAndKeyValue, checkKeyValue, checkKey,
          checkRequest_of_verify hv, hv, hk]
      · simp [storeHandler, checkRequestAndKeyValue, checkKeyValue, checkKey,
          checkRequest_of_verify hv, hv, hk]
  · rw [Bool.not_eq_true] at hv
    constructor
    · refine ⟨Err.unauthenticated, ?_⟩
      simp [storeHandler, checkRequestAndKeyValue, checkRequest_of_not_verify hv]
    · simp [storeHandler, checkRequestAndKeyValue, checkRequest_of_not_verify hv]

/-- C1 witness: a concrete Store request whose key differs from the content
hash of its value is rejected and leaves the store untouched. -/
theorem store_hash_mismatch_rejected_witness :
    (∃ e, (storeHandler ⟨fun _ => true, fun _ => [0], fun _ => []⟩ []
      ⟨⟨[], []⟩, [1], Document.page ⟨[], 0, [], []⟩⟩).1 = Except.error e) ∧
    (storeHandler ⟨fun _ => true, fun _ => [0], fun _ => []⟩ []
      ⟨⟨[], []⟩, [1], Document.page ⟨[], 0, [], []⟩⟩).2 = [] :=
  store_hash_mismatch_rejected
    ⟨fun _ => true, fun _ => [0], fun _ => []⟩ []
    ⟨⟨[], []⟩, [1], Document.page ⟨[], 0, [], []⟩⟩ (by decide)

/-- C5 counterexample: `Ping` performs no request verification — with a
verifier that rejects every request, the Ping handler still returns the
normal `"pong"` response instead of an error, refuting the claim that every
handler, including Ping, verifies the signed metadata first. -/
theorem ping_skips_verification_counterexample :
    pingHandler ⟨fun _ => false, fun _ => [], fun _ => []⟩ ⟨⟨[], []⟩⟩ =
      Except.ok ⟨"pong"⟩ ∧
    Env.verify ⟨fun _ => false, fun _ => [], fun _ => []⟩ ⟨[], []⟩ = false :=
  ⟨rfl, rfl⟩

/-- C5 (amended): every RPC handler except Ping verifies the inbound signed
metadata before any handler-specific logic: a request failing verification
yields an error, and the handler's state (routing table, document store) is
left unchanged; Ping answers without consulting the verifier. -/
theorem handlers_verify_request_first (env : Env) :
    (∀ (rt : Table) (rq : IntroduceRequest), env.verify rq.metadata = false →
      (∃ e, (introduceHandler env rt rq).1 = Except.error e) ∧
        (introduceHandler env rt rq).2 = rt) ∧
    (∀ (docs : DocStore) (rt : Table) (rq : FindRequest),
      env.verify rq.metadata = false →
      ∃ e, findHandler env docs rt rq = Except.error e) ∧
    (∀ (docs : DocStore) (rq : StoreRequest), env.verify rq.metadata = false →
      (∃ e, (storeHandler env docs rq).1 = Except.error e) ∧
        (storeHandler env docs rq).2 = docs) ∧
    (∀ (rt : Table) (sp : SearchParams)
      (searcher : Nat → List PeerAddress → Except Err SearchResult)
      (rq : GetRequest), env.verify rq.metadata = false →
      ∃ e, getHandler env rt sp searcher rq = Except.error e) ∧
    (∀ (rt : Table) (sp : SearchParams) (stp : StoreParams)
      (storer : Nat → List PeerAddress → Except Err StoreResult)
      (rq : PutRequest), env.verify rq.metadata = false →
      ∃ e, putHandler env rt sp stp storer rq = Except.error e) ∧
    (∀ rq : SubscribeRequest, env.verify rq.metadata = false →
      ∃ e, subscribeSetup env rq = Except.error e) := by
  refine ⟨?_, ?_, ?_, ?_, ?_, ?_⟩
  · intro rt rq hv
    refine ⟨⟨Err.unauthenticated, ?_⟩, ?_⟩ <;>
      simp [introduceHandler, checkRequest_of_not_verify hv]
  · intro docs rt rq hv
    exact ⟨Err.unauthenticated, by
      simp [findHandler, checkRequestAndKey, checkRequest_of_not_verify hv]⟩
  · intro docs rq hv
    refine ⟨⟨Err.unauthenticated, ?_⟩, ?_⟩ <;>
      simp [storeHandler, checkRequestAndKeyValue, checkRequest_of_not_verify hv]
  · intro rt sp searcher rq hv
    exact ⟨Err.unauthenticated, by
      simp [getHandler, checkRequestAndKey, checkRequest_of_not_verify hv]⟩
  · intro rt sp stp storer rq hv
    exact ⟨Err.unauthenticated, by
      simp [putHandler, checkRequestAndKeyValue, checkRequest_of_not_verify hv]⟩
  · intro rq hv
    exact ⟨Err.unauthenticated, by
      simp [subscribeSetup, checkRequest_of_not_verify hv]⟩

/-- C5 (amended) witness: with a rejecting verifier, concrete Find and
Subscribe requests are answered with errors. -/
theorem handlers_verify_request_first_witness :
    (∃ e, findHandler ⟨fun _ => false, fun _ => [], fun _ => []⟩ [] []
      ⟨⟨[], []⟩, [1], 2⟩ = Except.error e) ∧
    (∃ e, subscribeSetup ⟨fun _ => false, fun _ => [], fun _ => []⟩
      ⟨⟨[], []⟩, ⟨Except.ok fun _ => true, Except.ok fun _ => true⟩⟩ =
        Except.error e) :=
  ⟨(handlers_verify_request_first ⟨fun _ => false, fun _ => [], fun _ => []⟩).2.1
      [] [] ⟨⟨[], []⟩, [1], 2⟩ rfl,
   (handlers_verify_request_first
      ⟨fun _ => false, fun _ => [], fun _ => []⟩).2.2.2.2.2
      ⟨⟨[], []⟩, ⟨Except.ok fun _ => true, Except.ok fun _ => true⟩⟩ rfl⟩

/-- C8: in the Subscribe handler, a publication is sent to the subscriber iff
its author public key tests positive in the author bloom filter and its
reader public key in the reader bloom filter; a negative test skips the
publication without error. -/
theorem maybe_send_filter_gate (authorFilter readerFilter : Bytes → Bool)
    (send : SubscribeResponse → Except Err Unit)
    (responseMetadata : ResponseMetadata) (pub : KeyedPub) :
    ((authorFilter pub.value.authorPublicKey = false ∨
      readerFilter pub.value.readerPublicKey = false) →
      maybeSend authorFilter readerFilter send responseMetadata pub =
        Except.ok none) ∧
    ((∀ rp, send rp = Except.ok ()) →
      ((∃ rp, maybeSend authorFilter readerFilter send responseMetadata pub =
          Except.ok (some rp)) ↔
        (authorFilter pub.value.authorPublicKey = true ∧
          readerFilter pub.value.readerPublicKey = true))) := by
  constructor
  · intro h
    rcases h with h | h <;> simp [maybeSend, h]
  · intro hsend
    by_cases ha : authorFilter pub.value.authorPublicKey
    · by_cases hr : readerFilter pub.value.readerPublicKey
      · constructor
        · intro _
          exact ⟨ha, hr⟩
        · intro _
          have hrp : maybeSend authorFilter readerFilter send responseMetadata
              pub = Except.ok (some ⟨responseMetadata, pub.key, pub.value⟩) := by
            simp [maybeSend, ha, hr, hsend]
          exact ⟨_, hrp⟩
      · rw [Bool.not_eq_true] at hr
        constructor
        · intro hex
          rcases hex with ⟨rp, hrp⟩
          simp [maybeSend, ha, hr] at hrp
        · intro hct
          exact absurd hct.2 (by simp [hr])
    · rw [Bool.not_eq_true] at ha
      constructor
      · intro hex
        rcases hex with ⟨rp, hrp⟩
        simp [maybeSend, ha] at hrp
      · intro hct
        exact absurd hct.1 (by simp [ha])

/-- C8 witness: with all-positive filters and a successful stream, a concrete
publication is sent; with a negative author filter it is skipped without
error. -/
theorem maybe_send_filter_gate_witness :
    (∃ rp, maybeSend (fun _ => true) (fun _ => true) (fun _ => Except.ok ())
      ⟨[7]⟩ ⟨[1], ⟨[2], [3], [4]⟩⟩ = Except.ok (some rp)) ∧
    maybeSend (fun _ => false) (fun _ => true) (fun _ => Except.ok ())
      ⟨[7]⟩ ⟨[1], ⟨[2], [3], [4]⟩⟩ = Except.ok none :=
  ⟨((maybe_send_filter_gate (fun _ => true) (fun _ => true)
      (fun _ => Except.ok ()) ⟨[7]⟩ ⟨[1], ⟨[2], [3], [4]⟩⟩).2
      (fun _ => rfl)).mpr ⟨rfl, rfl⟩,
   (maybe_send_filter_gate (fun _ => false) (fun _ => true)
      (fun _ => Except.ok ()) ⟨[7]⟩ ⟨[1], ⟨[2], [3], [4]⟩⟩).1 (Or.inl rfl)⟩

/-- C9: when the packer assembles an entry from page ids, exactly one page id
inlines the page itself (loaded from the document store), and any other count
carries the page ids as an ordered `PageKeys` list. -/
theorem new_entry_doc_spec (docL : Bytes → Except Err Document)
    (authorPub : Bytes) (encMeta : EncryptedMetadata) (now : Int) :
    (∀ (k : Bytes) (p : Page), docL k = Except.ok (Document.page p) →
      newEntryDoc docL authorPub [k] encMeta now =
        Except.ok (Document.entry ⟨authorPub, EntryContents.page p, now,
          encMeta.ciphertext, encMeta.ciphertextMAC⟩)) ∧
    (∀ pageIDs : List Bytes, pageIDs.length ≠ 1 →
      newEntryDoc docL authorPub pageIDs encMeta now =
        Except.ok (Document.entry ⟨authorPub, EntryContents.pageKeys pageIDs,
          now, encMeta.ciphertext, encMeta.ciphertextMAC⟩)) := by
  constructor
  · intro k p hload
    simp [newEntryDoc, newSinglePageEntry, hload]
  · intro pageIDs hlen
    simp [newEntryDoc, newMultiPageEntry, hlen]

/-- C9 witness: a single-page id list inlines the concrete page; a two-id
list carries both ids in order. -/
theorem new_entry_doc_spec_witness :
    newEntryDoc (fun _ => Except.ok (Document.page ⟨[1], 0, [2], [3]⟩)) [9]
      [[5]] ⟨[6], [7]⟩ 11 =
      Except.ok (Document.entry ⟨[9], EntryContents.page ⟨[1], 0, [2], [3]⟩,
        11, [6], [7]⟩) ∧
    newEntryDoc (fun _ => Except.ok (Document.page ⟨[1], 0, [2], [3]⟩)) [9]
      [[5], [8]] ⟨[6], [7]⟩ 11 =
      Except.ok (Document.entry ⟨[9], EntryContents.pageKeys [[5], [8]],
        11, [6], [7]⟩) :=
  ⟨(new_entry_doc_spec (fun _ => Except.ok (Document.page ⟨[1], 0, [2], [3]⟩))
      [9] ⟨[6], [7]⟩ 11).1 [5] ⟨[1], 0, [2], [3]⟩ rfl,
   (new_entry_doc_spec (fun _ => Except.ok (Document.page ⟨[1], 0, [2], [3]⟩))
      [9] ⟨[6], [7]⟩ 11).2 [[5], [8]] (by decide)⟩

/-- A `peakBefore` peer is at most as far from the key. -/
theorem le_of_peakBefore {key : Nat} {p q : PeerAddress}
    (h : peakBefore key p q = true) : distTo key p ≤ distTo key q := by
  simp only [peakBefore, Bool.or_eq_true, decide_eq_true_eq, Bool.and_eq_true,
    beq_iff_eq] at h
  rcases h with h | ⟨h1, _⟩
  · exact le_of_lt h
  · exact le_of_eq h1

/-- A peer that is not `peakBefore` another is at least as far from the key. -/
theorem le_of_not_peakBefore {key : Nat} {p q : PeerAddress}
    (h : peakBefore key p q = false) : distTo key q ≤ distTo key p := by
  simp only [peakBefore, Bool.or_eq_false_iff, decide_eq_false_iff_not] at h
  exact le_of_not_lt h.1

/-- The head of an insertion is the new peer or the old head. -/
theorem insertByDist_head_cases (key : Nat) (p : PeerAddress)
    (l : List PeerAddress) :
    (insertByDist key p l).head? = some p ∨
      (insertByDist key p l).head? = l.head? := by
  cases l with
  | nil => left; rfl
  | cons q qs =>
    unfold insertByDist
    by_cases h : peakBefore key p q = true
    · left; simp [h]
    · right; simp [h]

/-- Inserting into a list sorted by distance keeps it sorted. -/
theorem chain_insertByDist (key : Nat) (p : PeerAddress) (l : List PeerAddress)
    (h : l.Chain' (fun a b => distTo key a ≤ distTo key b)) :
    (insertByDist key p l).Chain' (fun a b => distTo key a ≤ distTo key b) := by
  induction l with
  | nil => simp [insertByDist]
  | cons q qs ih =>
    unfold insertByDist
    by_cases hpq : peakBefore key p q = true
    · rw [if_pos hpq, List.chain'_cons']
      refine ⟨?_, h⟩
      intro y hy
      simp only [List.head?_cons, Option.mem_def, Option.some.injEq] at hy
      rw [← hy]
      exact le_of_peakBefore hpq
    · rw [Bool.not_eq_true] at hpq
      rw [if_neg (by simp [hpq]), List.chain'_cons']
      rw [List.chain'_cons'] at h
      refine ⟨?_, ih h.2⟩
      intro y hy
      rcases insertByDist_head_cases key p qs with hc | hc
      · rw [hc] at hy
        simp only [Option.mem_def, Option.some.injEq] at hy
        rw [← hy]
        exact le_of_not_peakBefore hpq
      · rw [hc] at hy
        exact h.1 y hy

/-- Insertion adds one to the length. -/
theorem length_insertByDist (key : Nat) (p : PeerAddress)
    (l : List PeerAddress) :
    (insertByDist key p l).length = l.length + 1 := by
  induction l with
  | nil => rfl
  | cons q qs ih =>
    unfold insertByDist
    by_cases h : peakBefore key p q = true <;> simp [h, ih]

/-- Sorting preserves the length. -/
theorem length_sortByDist (key : Nat) (l : List PeerAddress) :
    (sortByDist key l).length = l.length := by
  induction l with
  | nil => rfl
  | cons x xs ih =>
    show (insertByDist key x (sortByDist key xs)).length = xs.length + 1
    rw [length_insertByDist, ih]

/-- Insertion permutes consing. -/
theorem insertByDist_perm (key : Nat) (p : PeerAddress) (l : List PeerAddress) :
    List.Perm (insertByDist key p l) (p :: l) := by
  induction l with
  | nil => exact List.Perm.refl [p]
  | cons q qs ih =>
    unfold insertByDist
    by_cases h : peakBefore key p q = true
    · rw [if_pos h]
    · rw [Bool.not_eq_true] at h
      rw [if_neg (by simp [h])]
      exact (ih.cons q).trans (List.Perm.swap p q qs)

/-- The sorted table is a permutation of the table. -/
theorem sortByDist_perm (key : Nat) (l : List PeerAddress) :
    List.Perm (sortByDist key l) l := by
  induction l with
  | nil => exact List.Perm.refl []
  | cons x xs ih =>
    show List.Perm (insertByDist key x (sortByDist key xs)) (x :: xs)
    exact (insertByDist_perm key x (sortByDist key xs)).trans (ih.cons x)

/-- The sorted table is sorted by ascending XOR distance to the key. -/
theorem chain_sortByDist (key : Nat) (l : List PeerAddress) :
    (sortByDist key l).Chain' (fun a b => distTo key a ≤ distTo key b) := by
  induction l with
  | nil => simp [sortByDist]
  | cons x xs ih => exact chain_insertByDist key x (sortByDist key xs) ih

/-- C2: a Find request passing request and key checks is answered from the
local document store when the key is present (the value, and no peers), and
otherwise — absent key being no error — with the up-to-`num_peers` peers
closest to the key by XOR distance via `Peak`: drawn from the routing table,
in ascending XOR distance, `min num_peers |table|` of them. -/
theorem find_handler_load_or_peak (env : Env) (docs : DocStore) (rt : Table)
    (rq : FindRequest)
    (hv : env.verify rq.metadata = true) (hk : rq.key.length = 32) :
    (∀ v, loadDoc docs (bytesToNat rq.key) = some v →
      findHandler env docs rt rq =
        Except.ok ⟨⟨rq.metadata.requestId⟩, some v, []⟩) ∧
    (loadDoc docs (bytesToNat rq.key) = none →
      findHandler env docs rt rq =
        Except.ok ⟨⟨rq.metadata.requestId⟩, none,
          peak rt (bytesToNat rq.key) rq.numPeers⟩ ∧
      (peak rt (bytesToNat rq.key) rq.numPeers).length =
        min rq.numPeers rt.length ∧
      (peak rt (bytesToNat rq.key) rq.numPeers).Chain'
        (fun a b => distTo (bytesToNat rq.key) a ≤
          distTo (bytesToNat rq.key) b) ∧
      ∀ p ∈ peak rt (bytesToNat rq.key) rq.numPeers, p ∈ rt) := by
  constructor
  · intro v hload
    simp [findHandler, checkRequestAndKey, checkKey,
      checkRequest_of_verify hv, hk, hload, newResponseMetadata]
  · intro hload
    refine ⟨?_, ?_, ?_, ?_⟩
    · simp [findHandler, checkRequestAndKey, checkKey,
        checkRequest_of_verify hv, hk, hload, newResponseMetadata]
    · rw [peak, List.length_take, length_sortByDist]
    · exact (chain_sortByDist (bytesToNat rq.key) rt).take rq.numPeers
    · intro p hp
      have hmem : p ∈ sortByDist (bytesToNat rq.key) rt :=
        List.take_subset rq.numPeers _ hp
      exact (sortByDist_perm (bytesToNat rq.key) rt).subset hmem

/-- C2 witness: with a two-peer table and an absent key, the concrete Find
response carries the two peers in ascending XOR distance; with the key
present, the stored value and no peers. -/
theorem find_handler_load_or_peak_witness :
    findHandler ⟨fun _ => true, fun _ => [0], fun _ => []⟩ []
      [⟨[6], "a", "i", 1⟩, ⟨[1], "b", "i", 2⟩]
      ⟨⟨[9], []⟩, List.replicate 32 0, 2⟩ =
      Except.ok ⟨⟨[9]⟩, none, [⟨[1], "b", "i", 2⟩, ⟨[6], "a", "i", 1⟩]⟩ ∧
    findHandler ⟨fun _ => true, fun _ => [0], fun _ => []⟩
      [(0, Document.envelope ⟨[1], [2], [3]⟩)] []
      ⟨⟨[9], []⟩, List.replicate 32 0, 2⟩ =
      Except.ok ⟨⟨[9]⟩, some (Document.envelope ⟨[1], [2], [3]⟩), []⟩ :=
  ⟨((find_handler_load_or_peak ⟨fun _ => true, fun _ => [0], fun _ => []⟩ []
      [⟨[6], "a", "i", 1⟩, ⟨[1], "b", "i", 2⟩]
      ⟨⟨[9], []⟩, List.replicate 32 0, 2⟩ rfl (by decide)).2 rfl).1,
   (find_handler_load_or_peak ⟨fun _ => true, fun _ => [0], fun _ => []⟩
      [(0, Document.envelope ⟨[1], [2], [3]⟩)] []
      ⟨⟨[9], []⟩, List.replicate 32 0, 2⟩ rfl (by decide)).1
      (Document.envelope ⟨[1], [2], [3]⟩) (by decide)⟩

/-- C3: a Get request passing request and key checks launches a search and
maps its outcome: a found value is returned; found-closest-peers returns a
null value; a search that errored or exhausted (or otherwise did not find the
value) yields an error and no response. -/
theorem get_handler_outcome (env : Env) (rt : Table) (sp : SearchParams)
    (searcher : Nat → List PeerAddress → Except Err SearchResult)
    (rq : GetRequest) (r : SearchResult)
    (hv : env.verify rq.metadata = true) (hk : rq.key.length = 32)
    (hs : searcher (bytesToNat rq.key) (peak rt (bytesToNat rq.key)
      sp.concurrency) = Except.ok r) :
    (foundValue r = true →
      getHandler env rt sp searcher rq =
        Except.ok ⟨⟨rq.metadata.requestId⟩, r.value⟩) ∧
    (foundValue r = false → foundClosestPeers r sp = true →
      getHandler env rt sp searcher rq =
        Except.ok ⟨⟨rq.metadata.requestId⟩, none⟩) ∧
    (foundValue r = false → foundClosestPeers r sp = false →
      ∃ e, getHandler env rt sp searcher rq = Except.error e) := by
  refine ⟨?_, ?_, ?_⟩
  · intro hfv
    simp [getHandler, checkRequestAndKey, checkKey, checkRequest_of_verify hv,
      hk, hs, hfv, newResponseMetadata]
  · intro hfv hfc
    simp [getHandler, checkRequestAndKey, checkKey, checkRequest_of_verify hv,
      hk, hs, hfv, hfc, newResponseMetadata]
  · intro hfv hfc
    by_cases he : searchErrored r sp
    · exact ⟨Err.searchErrored, by
        simp [getHandler, checkRequestAndKey, checkKey,
          checkRequest_of_verify hv, hk, hs, hfv, hfc, he]⟩
    · rw [Bool.not_eq_true] at he
      by_cases hx : searchExhausted r
      · exact ⟨Err.searchExhausted, by
          simp [getHandler, checkRequestAndKey, checkKey,
            checkRequest_of_verify hv, hk, hs, hfv, hfc, he, hx]⟩
      · rw [Bool.not_eq_true] at hx
        exact ⟨Err.unexpectedSearchResult, by
          simp [getHandler, checkRequestAndKey, checkKey,
            checkRequest_of_verify hv, hk, hs, hfv, hfc, he, hx]⟩

/-- C3 witness: a concrete search that found a value yields a response
carrying that value; a concrete exhausted search yields an error. -/
theorem get_handler_outcome_witness :
    getHandler ⟨fun _ => true, fun _ => [0], fun _ => []⟩ [] ⟨2, 3, 3⟩
      (fun _ _ => Except.ok ⟨some (Document.envelope ⟨[1], [2], [3]⟩), [], [],
        [], 0, false⟩)
      ⟨⟨[9], []⟩, List.replicate 32 0⟩ =
      Except.ok ⟨⟨[9]⟩, some (Document.envelope ⟨[1], [2], [3]⟩)⟩ ∧
    (∃ e, getHandler ⟨fun _ => true, fun _ => [0], fun _ => []⟩ [] ⟨2, 3, 3⟩
      (fun _ _ => Except.ok ⟨none, [], [], [], 0, false⟩)
      ⟨⟨[9], []⟩, List.replicate 32 0⟩ = Except.error e) :=
  ⟨(get_handler_outcome ⟨fun _ => true, fun _ => [0], fun _ => []⟩ [] ⟨2, 3, 3⟩
      (fun _ _ => Except.ok ⟨some (Document.envelope ⟨[1], [2], [3]⟩), [], [],
        [], 0, false⟩)
      ⟨⟨[9], []⟩, List.replicate 32 0⟩
      ⟨some (Document.envelope ⟨[1], [2], [3]⟩), [], [], [], 0, false⟩
      rfl (by decide) rfl).1 rfl,
   (get_handler_outcome ⟨fun _ => true, fun _ => [0], fun _ => []⟩ [] ⟨2, 3, 3⟩
      (fun _ _ => Except.ok ⟨none, [], [], [], 0, false⟩)
      ⟨⟨[9], []⟩, List.replicate 32 0⟩
      ⟨none, [], [], [], 0, false⟩
      rfl (by decide) rfl).2.2 rfl (by decide)⟩

/-- C4: a Put request passing request and key/value checks launches a store
iteration and maps its outcome: Stored yields operation STORED with
`n_replicas` the number of peers that responded; Exists yields LEFT_EXISTING;
an errored or exhausted (or otherwise unfinished) store yields an error; and
`Stored()` holds exactly when replication achieved
`NReplicas ≥ NClosestResponses`. -/
theorem put_handler_outcome (env : Env) (rt : Table) (sp : SearchParams)
    (stp : StoreParams)
    (storer : Nat → List PeerAddress → Except Err StoreResult)
    (rq : PutRequest) (s : StoreResult)
    (hv : env.verify rq.metadata = true) (hk : rq.key.length = 32)
    (hval : env.sha256 (env.serializeDoc rq.value) = rq.key)
    (hs : storer (bytesToNat rq.key) (peak rt (bytesToNat rq.key)
      sp.concurrency) = Except.ok s) :
    (storeStored s sp = true →
      putHandler env rt sp stp storer rq =
        Except.ok ⟨⟨rq.metadata.requestId⟩, PutOperation.stored,
          s.responded.length⟩) ∧
    (storeStored s sp = false → storeExists s = true →
      putHandler env rt sp stp storer rq =
        Except.ok ⟨⟨rq.metadata.requestId⟩, PutOperation.leftExisting,
          s.responded.length⟩) ∧
    (storeStored s sp = false → storeExists s = false →
      ∃ e, putHandler env rt sp stp storer rq = Except.error e) ∧
    (storeStored s sp = true ↔ sp.nClosestResponses ≤ s.responded.length) := by
  refine ⟨?_, ?_, ?_, ?_⟩
  · intro hst
    simp [putHandler, checkRequestAndKeyValue, checkKeyValue, checkKey,
      checkRequest_of_verify hv, hk, hval, hs, hst, newResponseMetadata]
  · intro hst hex
    simp [putHandler, checkRequestAndKeyValue, checkKeyValue, checkKey,
      checkRequest_of_verify hv, hk, hval, hs, hst, hex, newResponseMetadata]
  · intro hst hex
    by_cases he : storeErrored s sp stp
    · exact ⟨Err.storeErrored, by
        simp [putHandler, checkRequestAndKeyValue, checkKeyValue, checkKey,
          checkRequest_of_verify hv, hk, hval, hs, hst, hex, he]⟩
    · rw [Bool.not_eq_true] at he
      by_cases hxh : storeExhausted s
      · exact ⟨Err.storeExhausted, by
          simp [putHandler, checkRequestAndKeyValue, checkKeyValue, checkKey,
            checkRequest_of_verify hv, hk, hval, hs, hst, hex, he, hxh]⟩
      · rw [Bool.not_eq_true] at hxh
        exact ⟨Err.unexpectedStoreResult, by
          simp [putHandler, checkRequestAndKeyValue, checkKeyValue, checkKey,
            checkRequest_of_verify hv, hk, hval, hs, hst, hex, he, hxh]⟩
  · simp [storeStored]

/-- C4 witness: a concrete replicated store yields STORED with the responded
count; a concrete search-found-existing store yields LEFT_EXISTING. -/
theorem put_handler_outcome_witness :
    putHandler ⟨fun _ => true, fun _ => List.replicate 32 0, fun _ => []⟩ []
      ⟨1, 3, 3⟩ ⟨3, 3⟩
      (fun _ _ => Except.ok ⟨⟨none, [], [], [], 0, false⟩, [],
        [⟨[1], "a", "i", 1⟩], 0, false⟩)
      ⟨⟨[9], []⟩, List.replicate 32 0, Document.envelope ⟨[1], [2], [3]⟩⟩ =
      Except.ok ⟨⟨[9]⟩, PutOperation.stored, 1⟩ ∧
    putHandler ⟨fun _ => true, fun _ => List.replicate 32 0, fun _ => []⟩ []
      ⟨1, 3, 3⟩ ⟨3, 3⟩
      (fun _ _ => Except.ok ⟨⟨some (Document.envelope ⟨[1], [2], [3]⟩), [],
        [], [], 0, false⟩, [], [], 0, false⟩)
      ⟨⟨[9], []⟩, List.replicate 32 0, Document.envelope ⟨[1], [2], [3]⟩⟩ =
      Except.ok ⟨⟨[9]⟩, PutOperation.leftExisting, 0⟩ :=
  ⟨(put_handler_outcome ⟨fun _ => true, fun _ => List.replicate 32 0,
      fun _ => []⟩ [] ⟨1, 3, 3⟩ ⟨3, 3⟩
      (fun _ _ => Except.ok ⟨⟨none, [], [], [], 0, false⟩, [],
        [⟨[1], "a", "i", 1⟩], 0, false⟩)
      ⟨⟨[9], []⟩, List.replicate 32 0, Document.envelope ⟨[1], [2], [3]⟩⟩
      ⟨⟨none, [], [], [], 0, false⟩, [], [⟨[1], "a", "i", 1⟩], 0, false⟩
      rfl (by decide) (by decide) rfl).1 (by decide),
   (put_handler_outcome ⟨fun _ => true, fun _ => List.replicate 32 0,
      fun _ => []⟩ [] ⟨1, 3, 3⟩ ⟨3, 3⟩
      (fun _ _ => Except.ok ⟨⟨some (Document.envelope ⟨[1], [2], [3]⟩), [],
        [], [], 0, false⟩, [], [], 0, false⟩)
      ⟨⟨[9], []⟩, List.replicate 32 0, Document.envelope ⟨[1], [2], [3]⟩⟩
      ⟨⟨some (Document.envelope ⟨[1], [2], [3]⟩), [], [], [], 0, false⟩, [],
        [], 0, false⟩
      rfl (by decide) (by decide) rfl).2.1 (by decide) (by decide)⟩

/-- The peers returned by a successful Introduce are the deterministic sample
of the post-push table, seeded by the first 8 bytes of the request id. -/
theorem introduce_ok_peers (env : Env) (rt : Table) (rq : IntroduceRequest)
    (rp : IntroduceResponse)
    (h : (introduceHandler env rt rq).1 = Except.ok rp) :
    rp.peers = sample (pushPeer rt (peerFromAPI rq.self)) rq.numPeers
      (bytesToNat (rq.metadata.requestId.take 8)) := by
  unfold introduceHandler at h
  cases hcr : checkRequest env rq.metadata with
  | error e =>
    rw [hcr] at h
    simp at h
  | ok rid =>
    rw [hcr] at h
    split at h
    · simp at h
    · dsimp only at h
      split at h
      · simp at h
      · rw [Except.ok.injEq] at h
        subst h
        rfl

/-- C6: two Introduce requests agreeing on the first 8 bytes of their request
id, their stated self and their requested peer count, processed against the
same routing-table state, are answered with the identical sampled peer set:
the rng seed is derived solely from the first 8 bytes of the request id. -/
theorem introduce_sample_deterministic (env : Env) (rt : Table)
    (rq1 rq2 : IntroduceRequest) (rp1 rp2 : IntroduceResponse)
    (hid : rq1.metadata.requestId.take 8 = rq2.metadata.requestId.take 8)
    (hself : rq1.self = rq2.self) (hnum : rq1.numPeers = rq2.numPeers)
    (h1 : (introduceHandler env rt rq1).1 = Except.ok rp1)
    (h2 : (introduceHandler env rt rq2).1 = Except.ok rp2) :
    rp1.peers = rp2.peers := by
  rw [introduce_ok_peers env rt rq1 rp1 h1,
    introduce_ok_peers env rt rq2 rp2 h2, hid, hself, hnum]

/-- C6 witness: two concrete requests whose request ids differ only beyond
the 8th byte receive the same sampled peer set. -/
theorem introduce_sample_deterministic_witness :
    (⟨⟨[1, 2, 3, 4, 5, 6, 7, 8, 9]⟩, ⟨[5], "p", "i", 1⟩,
      [⟨[5], "p", "i", 1⟩]⟩ : IntroduceResponse).peers =
    (⟨⟨[1, 2, 3, 4, 5, 6, 7, 8, 200]⟩, ⟨[5], "p", "i", 1⟩,
      [⟨[5], "p", "i", 1⟩]⟩ : IntroduceResponse).peers :=
  introduce_sample_deterministic
    ⟨fun _ => true, fun _ => [5], fun _ => []⟩ []
    ⟨⟨[1, 2, 3, 4, 5, 6, 7, 8, 9], []⟩, ⟨[5], "p", "i", 1⟩, 1⟩
    ⟨⟨[1, 2, 3, 4, 5, 6, 7, 8, 200], []⟩, ⟨[5], "p", "i", 1⟩, 1⟩
    ⟨⟨[1, 2, 3, 4, 5, 6, 7, 8, 9]⟩, ⟨[5], "p", "i", 1⟩, [⟨[5], "p", "i", 1⟩]⟩
    ⟨⟨[1, 2, 3, 4, 5, 6, 7, 8, 200]⟩, ⟨[5], "p", "i", 1⟩,
      [⟨[5], "p", "i", 1⟩]⟩
    (by decide) rfl rfl rfl rfl

/-- Membership after appending one binding. -/
theorem pmapContains_append_single (u : PMap) (kp : Nat) (v : PeerAddress)
    (k : Nat) :
    pmapContains (u ++ [(kp, v)]) k = (pmapContains u k || (kp == k)) := by
  simp [pmapContains, List.any_append]

/-- Membership in the unqueried map after the `Process` loop: a key is there
iff it was already, or it is a discovered peer id not in the responded map. -/
theorem contains_addUnqueried (responded : PMap) (k : Nat)
    (pas : List PeerAddress) :
    ∀ u : PMap, pmapContains (addUnqueried responded pas u) k =
      (pmapContains u k || (!pmapContains responded k &&
        pas.any (fun pa => bytesToNat pa.peerId == k))) := by
  induction pas with
  | nil => intro u; simp [addUnqueried]
  | cons pa pas ih =>
    intro u
    unfold addUnqueried
    dsimp only
    by_cases hg : (pmapContains responded (bytesToNat pa.peerId) ||
        pmapContains u (bytesToNat pa.peerId)) = true
    · rw [if_pos hg, ih u]
      cases hfk : (bytesToNat pa.peerId == k) with
      | false => simp [List.any_cons, hfk]
      | true =>
        have hke : bytesToNat pa.peerId = k := by
          exact beq_iff_eq.mp hfk
        rw [hke] at hg
        cases hR : pmapContains responded k <;>
          cases hU : pmapContains u k <;>
            simp_all [List.any_cons]
    · rw [if_neg hg, ih (u ++ [(bytesToNat pa.peerId, peerFromAPI pa)]),
        pmapContains_append_single]
      rw [Bool.or_eq_true] at hg
      push_neg at hg
      cases hfk : (bytesToNat pa.peerId == k) with
      | false => simp [List.any_cons, hfk]
      | true =>
        have hke : bytesToNat pa.peerId = k := by
          exact beq_iff_eq.mp hfk
        rw [hke] at hg
        have hR : pmapContains responded k = false := by
          simpa using hg.1
        have hU : pmapContains u k = false := by
          simpa using hg.2
        simp [List.any_cons, hfk, hR, hU, hke]

/-- The `Process` loop only appends to the unqueried map. -/
theorem addUnqueried_append (responded : PMap) (pas : List PeerAddress) :
    ∀ u : PMap, ∃ ext, addUnqueried responded pas u = u ++ ext := by
  induction pas with
  | nil =>
    intro u
    exact ⟨[], (List.append_nil u).symm⟩
  | cons pa pas ih =>
    intro u
    unfold addUnqueried
    dsimp only
    by_cases hg : (pmapContains responded (bytesToNat pa.peerId) ||
        pmapContains u (bytesToNat pa.peerId)) = true
    · rw [if_pos hg]
      exact ih u
    · rw [if_neg hg]
      rcases ih (u ++ [(bytesToNat pa.peerId, peerFromAPI pa)]) with ⟨ext, hext⟩
      exact ⟨(bytesToNat pa.peerId, peerFromAPI pa) :: ext, by
        rw [hext, List.append_assoc]; rfl⟩

/-- Lookup is untouched by appending bindings when the key is already bound. -/
theorem pmapLookup_append_of_contains (u ext : PMap) (k : Nat)
    (h : pmapContains u k = true) :
    pmapLookup (u ++ ext) k = pmapLookup u k := by
  have hsome : (u.find? (fun e => e.1 == k)).isSome := by
    rw [List.find?_isSome]
    simpa [pmapContains, List.any_eq_true] using h
  rcases Option.isSome_iff_exists.mp hsome with ⟨e, he⟩
  simp [pmapLookup, List.find?_append, he]

/-- A key absent per `pmapContains` is not among the map's keys. -/
theorem not_mem_keys_of_not_contains (u : PMap) (k : Nat)
    (h : pmapContains u k = false) : k ∉ u.map Prod.fst := by
  intro hmem
  rcases List.mem_map.mp hmem with ⟨e, he, hk⟩
  have : pmapContains u k = true := by
    rw [pmapContains, List.any_eq_true]
    exact ⟨e, he, by simp [hk]⟩
  simp [this] at h

/-- The `Process` loop creates no duplicate keys in the unqueried map. -/
theorem nodup_addUnqueried (responded : PMap) (pas : List PeerAddress) :
    ∀ u : PMap, (u.map Prod.fst).Nodup →
      ((addUnqueried responded pas u).map Prod.fst).Nodup := by
  induction pas with
  | nil =>
    intro u h
    simpa [addUnqueried] using h
  | cons pa pas ih =>
    intro u h
    unfold addUnqueried
    dsimp only
    by_cases hg : (pmapContains responded (bytesToNat pa.peerId) ||
        pmapContains u (bytesToNat pa.peerId)) = true
    · rw [if_pos hg]
      exact ih u h
    · rw [if_neg hg]
      apply ih
      rw [List.map_append]
      refine List.Nodup.append h (by simp) ?_
      intro a ha hb
      simp only [List.map_cons, List.map_nil, List.mem_singleton] at hb
      subst hb
      rw [Bool.or_eq_true] at hg
      push_neg at hg
      have hU : pmapContains u (bytesToNat pa.peerId) = false := by
        simpa using hg.2
      exact not_mem_keys_of_not_contains u (bytesToNat pa.peerId) hU ha

/-- C7: `responseProcessor.Process` inserts the responder `rp.Self` into the
responded map, and adds each address of `rp.Peers` to the unqueried map iff
its peer id is in neither the (updated) responded map nor the unqueried map
already; entries already present keep their value, and no duplicate keys are
created. -/
theorem process_introduce_response_spec (rp : IntroduceResponse)
    (res : IntroResult) :
    (processIntroduceResponse rp res).responded =
      pmapInsert res.responded (bytesToNat rp.self.peerId)
        (peerFromAPI rp.self) ∧
    (∀ k, pmapContains (processIntroduceResponse rp res).unqueried k =
      (pmapContains res.unqueried k ||
        (!pmapContains (processIntroduceResponse rp res).responded k &&
          rp.peers.any (fun pa => bytesToNat pa.peerId == k)))) ∧
    (∀ k, pmapContains res.unqueried k = true →
      pmapLookup (processIntroduceResponse rp res).unqueried k =
        pmapLookup res.unqueried k) ∧
    ((res.unqueried.map Prod.fst).Nodup →
      ((processIntroduceResponse rp res).unqueried.map Prod.fst).Nodup) := by
  refine ⟨rfl, ?_, ?_, ?_⟩
  · intro k
    exact contains_addUnqueried
      (pmapInsert res.responded (bytesToNat rp.self.peerId)
        (peerFromAPI rp.self)) k rp.peers res.unqueried
  · intro k hk
    show pmapLookup (addUnqueried
      (pmapInsert res.responded (bytesToNat rp.self.peerId)
        (peerFromAPI rp.self)) rp.peers res.unqueried) k =
      pmapLookup res.unqueried k
    rcases addUnqueried_append
      (pmapInsert res.responded (bytesToNat rp.self.peerId)
        (peerFromAPI rp.self)) rp.peers res.unqueried with ⟨ext, hext⟩
    rw [hext]
    exact pmapLookup_append_of_contains res.unqueried ext k hk
  · intro h
    exact nodup_addUnqueried
      (pmapInsert res.responded (bytesToNat rp.self.peerId)
        (peerFromAPI rp.self)) rp.peers res.unqueried h

/-- C7 witness: processing a concrete response containing one already-known,
one responded, and one new peer leaves the known entry unchanged, keeps the
keys duplicate-free, and adds exactly the new peer. -/
theorem process_introduce_response_spec_witness :
    pmapLookup (processIntroduceResponse
      ⟨⟨[9]⟩, ⟨[7], "s", "i", 1⟩,
        [⟨[3], "x", "i", 2⟩, ⟨[5], "y", "i", 3⟩, ⟨[9], "z", "i", 4⟩]⟩
      ⟨[(5, ⟨[5], "y", "i", 3⟩)], [(3, ⟨[3], "x", "i", 2⟩)]⟩).unqueried 3 =
      pmapLookup [(3, (⟨[3], "x", "i", 2⟩ : PeerAddress))] 3 ∧
    ((processIntroduceResponse
      ⟨⟨[9]⟩, ⟨[7], "s", "i", 1⟩,
        [⟨[3], "x", "i", 2⟩, ⟨[5], "y", "i", 3⟩, ⟨[9], "z", "i", 4⟩]⟩
      ⟨[(5, ⟨[5], "y", "i", 3⟩)], [(3, ⟨[3], "x", "i", 2⟩)]⟩).unqueried.map
        Prod.fst).Nodup :=
  ⟨(process_introduce_response_spec
      ⟨⟨[9]⟩, ⟨[7], "s", "i", 1⟩,
        [⟨[3], "x", "i", 2⟩, ⟨[5], "y", "i", 3⟩, ⟨[9], "z", "i", 4⟩]⟩
      ⟨[(5, ⟨[5], "y", "i", 3⟩)], [(3, ⟨[3], "x", "i", 2⟩)]⟩).2.2.1 3
      (by decide),
   (process_introduce_response_spec
      ⟨⟨[9]⟩, ⟨[7], "s", "i", 1⟩,
        [⟨[3], "x", "i", 2⟩, ⟨[5], "y", "i", 3⟩, ⟨[9], "z", "i", 4⟩]⟩
      ⟨[(5, ⟨[5], "y", "i", 3⟩)], [(3, ⟨[3], "x", "i", 2⟩)]⟩).2.2.2
      (by decide)⟩

/-- C10: `RocksDB.Get` guards both a nil receiver and a nil underlying `rdb`
handle with explicit checks and returns an error, while `Put` and `Delete`
have no such guards and panic on the nil dereference. -/
theorem rocksdb_get_nil_guarded (key value : Bytes) :
    RocksDB.get none key = Except.error "RocksDB struct is nil!" ∧
    RocksDB.get (some ⟨none, (), ()⟩) key = Except.error "rdb is nil!" ∧
    RocksDB.put none key value = GoOutcome.panicked ∧
    RocksDB.put (some ⟨none, (), ()⟩) key value = GoOutcome.panicked ∧
    RocksDB.delete none key = GoOutcome.panicked ∧
    RocksDB.delete (some ⟨none, (), ()⟩) key = GoOutcome.panicked :=
  ⟨rfl, rfl, rfl, rfl, rfl, rfl⟩

end Libri

